import Mathlib

/-!
Verification of the pandoc→HWPX converter core (`pypandoc_hwpx/PandocToHwpx.py`)
against its design specification.

Shallow embedding conventions:
* XML `charPr` / `paraPr` / `borderFill` records are modelled as Lean
  structures holding exactly the attributes and marker sub-elements the
  converter reads or writes; ids, which are decimal strings in the XML, are
  modelled as naturals (the code writes `str(int)` and compares exactly, so
  canonical numerals make this a bijection on the values that occur).
* The mutable converter object (`self.char_pr_cache`, `self.max_char_pr_id`,
  the parsed header tree, …) becomes an explicit state record `HState`
  threaded through each operation.
* Python set / dict operations become functional updates: `set.copy()`
  followed by `add` is a record update producing a new value, dict insertion
  appends to an association list (a key is inserted at most once, so the two
  are extensionally equal).
* Python truthiness on the optional `color` (a string) and `font_size`
  (an int) arguments is modelled by `colorFalsy` / `sizeFalsy`: `None` and
  `""`, resp. `None` and `0`, count as absent, exactly as `if not color` /
  `if not font_size` behave in the source.
-/

namespace PandocToHwpx

/-- A `hh:charPr` record: the attributes (`textColor`, `height`) and the
marker sub-elements (`bold`, `italic`, `underline`, `strikeout`,
`supscript`, `subscript`) that `_get_or_create_char_pr` reads or writes.
The `underline`/`strikeout` markers carry their `color` attribute (the
`type`/`shape` attributes are set to fixed constants by the code and are
not needed to decide any claim). -/
structure CharPr where
  id : Nat
  textColor : Option String := none
  height : Option Nat := none
  bold : Bool := false
  italic : Bool := false
  underl : Option String := none
  strike : Option String := none
  supscript : Bool := false
  subscript : Bool := false
deriving Repr, DecidableEq

/-- The active-format set threaded through `_process_inlines`: a Python set
over the six format tags, modelled as a record of membership flags (a
finite set over a six-element universe). -/
structure Formats where
  bold : Bool := false
  italic : Bool := false
  underl : Bool := false
  strike : Bool := false
  supscript : Bool := false
  subscript : Bool := false
deriving Repr, DecidableEq

/-- The empty Python set `set()`. -/
def emptyFormats : Formats := {}

/-- Python truthiness of the optional color string: `None` and `""` are falsy. -/
def colorFalsy : Option String → Bool
  | none => true
  | some c => c = ""

/-- Python truthiness of the optional font size: `None` and `0` are falsy. -/
def sizeFalsy : Option Nat → Bool
  | none => true
  | some n => n = 0

/-- The `if not active_formats and not color and not font_size` test of
`_get_or_create_char_pr` (the "no-op combination"). -/
def noopReq (f : Formats) (color : Option String) (size : Option Nat) : Bool :=
  decide (f = emptyFormats) && colorFalsy color && sizeFalsy size

/-- A `hh:paraPr` record: its id plus the margin values
(`intent value`, `left value`) written into the `hp:case` and `hp:default`
branches of the `hp:switch` sub-structure by `_get_or_create_para_pr`. -/
structure ParaPr where
  id : Nat
  caseMargin : Option (Int × Int) := none
  defaultMargin : Option (Int × Int) := none
deriving Repr, DecidableEq

/-- Paragraph styles extracted from the raw HTML pre-pass
(`HTMLParagraphStyleExtractor`), with the CSS length values already put
through `_convert_size_to_hwp` (that string parser is outside every claim;
`none` covers both an absent key and an unparseable value, which the code
treats identically via truthiness). -/
structure HtmlStyles where
  paddingLeft : Option Int := none
  marginLeft : Option Int := none
  textIndent : Option Int := none
deriving Repr, DecidableEq

/-- Cache key of `_get_or_create_char_pr`:
`(base_char_pr_id, frozenset(active_formats), color, font_size)`. -/
abbrev CharKey := Nat × Formats × Option String × Option Nat

/-- The converter's mutable state: the parsed header tree's three property
collections with their running maximum ids, the two resolution caches, the
lazily created table border fill, the "Normal" style ids found at parse
time, and the HTML paragraph-style map.  `headerPresent = false` models
`self.header_root is None` (no template header was parsed); when the header
is present the `charProperties`/`paraProperties`/`borderFills` containers
are modelled as present, as they are in any real template. -/
structure HState where
  headerPresent : Bool := true
  charPrs : List CharPr := []
  maxCharPrId : Nat := 0
  charPrCache : List (CharKey × Nat) := []
  paraPrs : List ParaPr := []
  maxParaPrId : Nat := 0
  paraPrCache : List ((Int × Int) × Nat) := []
  borderFills : List Nat := []
  maxBorderFillId : Nat := 0
  tableBorderFillId : Option Nat := none
  normalStyleId : Nat := 0
  normalParaPrId : Nat := 1
  htmlParaStyles : List (String × HtmlStyles) := []
deriving Repr, DecidableEq

/-- Dictionary lookup in the charPr resolution cache. -/
def cacheLookup (cache : List (CharKey × Nat)) (k : CharKey) : Option Nat :=
  (cache.find? (fun e => e.1 = k)).map (·.2)

/-- Dictionary lookup in the paraPr resolution cache. -/
def paraCacheLookup (cache : List ((Int × Int) × Nat)) (k : Int × Int) : Option Nat :=
  (cache.find? (fun e => e.1 = k)).map (·.2)

/-- `header_root.find('.//hh:charPr[@id="i"]')`: first record with the id,
in document order (appended records live at the end of the collection). -/
def findCharPr (prs : List CharPr) (i : Nat) : Option CharPr :=
  prs.find? (fun pr => pr.id = i)

/-- `header_root.find('.//hh:paraPr[@id="i"]')`. -/
def findParaPr (prs : List ParaPr) (i : Nat) : Option ParaPr :=
  prs.find? (fun pr => pr.id = i)

/-- The `if color:` block: set the `textColor` attribute and recolor an
existing underline marker. -/
def applyColor (n : CharPr) (color : Option String) : CharPr :=
  match color with
  | none => n
  | some c =>
    if c = "" then n
    else { n with textColor := some c, underl := n.underl.map (fun _ => c) }

/-- The `if font_size:` block: `height = font_size * 100`. -/
def applySize (n : CharPr) (size : Option Nat) : CharPr :=
  match size with
  | none => n
  | some v => if v = 0 then n else { n with height := some (v * 100) }

/-- Underline/strikeout marker color: the inherited `color` if truthy,
else `"#000000"`. -/
def markerColor (color : Option String) : String :=
  match color with
  | none => "#000000"
  | some c => if c = "" then "#000000" else c

/-- The format-marker block of `_get_or_create_char_pr`, applied in source
order: BOLD, ITALIC, UNDERLINE, STRIKEOUT, then the SUPERSCRIPT `elif`
SUBSCRIPT pair (remove the rival marker, ensure one's own). -/
def applyFmts (n : CharPr) (f : Formats) (color : Option String) : CharPr :=
  let n1 := if f.bold then { n with bold := true } else n
  let n2 := if f.italic then { n1 with italic := true } else n1
  let n3 := if f.underl then { n2 with underl := some (markerColor color) } else n2
  let n4 := if f.strike then { n3 with strike := some (markerColor color) } else n3
  if f.supscript then { n4 with subscript := false, supscript := true }
  else if f.subscript then { n4 with supscript := false, subscript := true }
  else n4

/-- `copy.deepcopy(base_node)` followed by the whole attribute/marker
application sequence of `_get_or_create_char_pr`. -/
def synthCharPr (base : CharPr) (newId : Nat) (f : Formats)
    (color : Option String) (size : Option Nat) : CharPr :=
  applyFmts (applySize (applyColor { base with id := newId } color) size) f color

/-- `_get_or_create_char_pr(base_char_pr_id, active_formats, color, font_size)`:
returns the resolved charPr id and the updated converter state.  Branch
order follows the source: cache hit, no-op combination, absent header,
base lookup with fall-back to id 0, then clone/allocate/apply/append/cache. -/
def resolveCharPr (s : HState) (baseId : Nat) (f : Formats)
    (color : Option String) (size : Option Nat) : Nat × HState :=
  let key : CharKey := (baseId, f, color, size)
  match cacheLookup s.charPrCache key with
  | some i => (i, s)
  | none =>
    if noopReq f color size then (baseId, s)
    else if s.headerPresent = false then (baseId, s)
    else
      match (findCharPr s.charPrs baseId).orElse (fun _ => findCharPr s.charPrs 0) with
      | none => (baseId, s)
      | some base =>
        let newId := s.maxCharPrId + 1
        let node := synthCharPr base newId f color size
        (newId, { s with
                    maxCharPrId := newId
                    charPrs := s.charPrs ++ [node]
                    charPrCache := s.charPrCache ++ [(key, newId)] })

/-- `_get_or_create_para_pr(padding_left, text_indent)`: unit conversion,
cache lookup, zero/zero short-circuit to the Normal id, clone of the Normal
(else id-0) record with the margin pair mirrored into the `case` and
`default` variants, allocate/append/cache. -/
def resolveParaPr (s : HState) (paddingLeft textIndent : Int) : Nat × HState :=
  let leftMargin : Int := if paddingLeft ≠ 0 then paddingLeft * 100 else 0
  let indentVal : Int := if textIndent ≠ 0 then textIndent * 100 else 0
  let key := (leftMargin, indentVal)
  match paraCacheLookup s.paraPrCache key with
  | some i => (i, s)
  | none =>
    if leftMargin = 0 ∧ indentVal = 0 then (s.normalParaPrId, s)
    else if s.headerPresent = false then (s.normalParaPrId, s)
    else
      match (findParaPr s.paraPrs s.normalParaPrId).orElse
              (fun _ => findParaPr s.paraPrs 0) with
      | none => (s.normalParaPrId, s)
      | some base =>
        let newId := s.maxParaPrId + 1
        let node : ParaPr :=
          { base with
              id := newId
              caseMargin := some (indentVal, leftMargin)
              defaultMargin := some (indentVal, leftMargin) }
        (newId, { s with
                    maxParaPrId := newId
                    paraPrs := s.paraPrs ++ [node]
                    paraPrCache := s.paraPrCache ++ [(key, newId)] })

/-- `_ensure_table_border_fill`: lazily allocate the single table border
fill (its XML content is a fixed literal; only the id matters to any
claim) and remember it for the rest of the run. -/
def ensureTableBorderFill (s : HState) : Nat × HState :=
  match s.tableBorderFillId with
  | some i => (i, s)
  | none =>
    let newId := s.maxBorderFillId + 1
    (newId, { s with
                maxBorderFillId := newId
                tableBorderFillId := some newId
                borderFills := s.borderFills ++ [newId] })

/-! ## Table layout engine (`_handle_table`, lines 706–768)

Only the grid walk is embedded here: spans and addresses.  Cell contents are
rendered by a recursive call to the tree walker and have no effect on the
layout, and the emitted width/margin attributes are arithmetic on the
computed column address already captured by the placement. -/

/-- A table cell as the layout walk sees it: `rowspan = cell[2]`,
`colspan = cell[3]`. -/
structure TCell where
  rowspan : Nat
  colspan : Nat
deriving Repr, DecidableEq

/-- An emitted `hp:tc`: its `cellAddr` (`rowAddr`,`colAddr`) and
`cellSpan` (`rowSpan`,`colSpan`). -/
structure Placement where
  row : Nat
  col : Nat
  rowspan : Nat
  colspan : Nat
deriving Repr, DecidableEq

/-- `occupied_cells.add(p)`: Python-set insertion (deduplicating, so the
list stays duplicate-free and its length is the set's cardinality). -/
def addPos (occ : List (Nat × Nat)) (p : Nat × Nat) : List (Nat × Nat) :=
  if p ∈ occ then occ else occ ++ [p]

/-- Inner marking loop: `for c in range(colspan): add((r, col + c))`. -/
def markColSpan (occ : List (Nat × Nat)) (r col cs : Nat) : List (Nat × Nat) :=
  (List.range cs).foldl (fun o j => addPos o (r, col + j)) occ

/-- `for r in range(rowspan): for c in range(colspan):
add((row + r, col + c))`. -/
def markFootprint (occ : List (Nat × Nat)) (row col rs cs : Nat) : List (Nat × Nat) :=
  (List.range rs).foldl (fun o i => markColSpan o (row + i) col cs) occ

/-- `while (row, col) in occupied_cells: col += 1`, run with enough fuel:
the probed positions are pairwise distinct, and `occ` is duplicate-free, so
at most `occ.length` probes can hit an occupied position and
`occ.length + 1` steps always reach the loop's exit — the fuel never runs
out on the states the walk produces. -/
def skipCols (occ : List (Nat × Nat)) (r : Nat) : Nat → Nat → Nat
  | c, 0 => c
  | c, fuel + 1 => if (r, c) ∈ occ then skipCols occ r (c + 1) fuel else c

/-- Cell loop of one `hp:tr`: skip occupied columns, record the placement,
mark the footprint, advance the column pointer by the colspan. -/
def layoutCells (occ : List (Nat × Nat)) (r : Nat) (c : Nat) :
    List TCell → List Placement × List (Nat × Nat)
  | [] => ([], occ)
  | cell :: rest =>
    let actual := skipCols occ r c (occ.length + 1)
    let occ2 := markFootprint occ r actual cell.rowspan cell.colspan
    let res := layoutCells occ2 r (actual + cell.colspan) rest
    (⟨r, actual, cell.rowspan, cell.colspan⟩ :: res.1, res.2)

/-- Row loop: each row restarts the column pointer at 0 and increments the
row address. -/
def layoutRows (occ : List (Nat × Nat)) (r : Nat) :
    List (List TCell) → List Placement × List (Nat × Nat)
  | [] => ([], occ)
  | row :: rows =>
    let res := layoutCells occ r 0 row
    let res2 := layoutRows res.2 (r + 1) rows
    (res.1 ++ res2.1, res2.2)

/-- The full walk over the flattened rows, starting from the per-table
empty occupancy set. -/
def tableLayout (rows : List (List TCell)) : List Placement × List (Nat × Nat) :=
  layoutRows [] 0 rows

/-- `(r, c)` lies in a placement's rowSpan×colSpan footprint. -/
def inFp (p : Placement) (pos : Nat × Nat) : Prop :=
  p.row ≤ pos.1 ∧ pos.1 < p.row + p.rowspan ∧ p.col ≤ pos.2 ∧ pos.2 < p.col + p.colspan

instance (p : Placement) (pos : Nat × Nat) : Decidable (inFp p pos) := by
  unfold inFp; infer_instance

/-- Analysis predicate (not part of the source walk): the footprint about
to be marked is entirely free in the incoming occupancy set. -/
def fpFree (occ : List (Nat × Nat)) (row col rs cs : Nat) : Bool :=
  (List.range rs).all fun i => (List.range cs).all fun j =>
    !((row + i, col + j) ∈ occ : Bool)

/-- Analysis predicate mirroring `layoutCells`: every cell of the row is
placed on entirely free positions. -/
def cellsOk (occ : List (Nat × Nat)) (r : Nat) (c : Nat) : List TCell → Bool
  | [] => true
  | cell :: rest =>
    let actual := skipCols occ r c (occ.length + 1)
    fpFree occ r actual cell.rowspan cell.colspan &&
      cellsOk (markFootprint occ r actual cell.rowspan cell.colspan) r
        (actual + cell.colspan) rest

/-- Analysis predicate mirroring `layoutRows`. -/
def rowsOk (occ : List (Nat × Nat)) (r : Nat) : List (List TCell) → Bool
  | [] => true
  | row :: rows =>
    cellsOk occ r 0 row && rowsOk (layoutCells occ r 0 row).2 (r + 1) rows

/-- The whole walk never marks an already-occupied position. -/
def layoutOk (rows : List (List TCell)) : Bool :=
  rowsOk [] 0 rows

/-- The walk's final occupancy set covers the whole declared `n × d` grid. -/
def coversGrid (rows : List (List TCell)) (d : Nat) : Bool :=
  (List.range rows.length).all fun r => (List.range d).all fun c =>
    ((r, c) ∈ (tableLayout rows).2 : Bool)

/-! ## Block/inline tree walker

The pandoc AST subset the walker dispatches on.  `Span` carries the styles
already extracted by `_extract_style_from_attr` (that function's CSS/class
string parsing feeds no claim; its output shape is the `SpanStyles`
record).  `Table` blocks are laid out by the standalone engine above — the
grid walk neither reads nor writes the walker's state — so the `Block`
type covers the remaining dispatch arms of `_process_blocks`. -/

/-- Output of `_extract_style_from_attr` for a `Span`'s attributes. -/
structure SpanStyles where
  bold : Bool := false
  italic : Bool := false
  underl : Bool := false
  strike : Bool := false
  color : Option String := none
  fontSize : Option Nat := none
deriving Repr, DecidableEq

/-- Pandoc inline nodes handled by `_process_inlines`. -/
inductive Inline where
  | str (s : String)
  | space
  | strong (content : List Inline)
  | emph (content : List Inline)
  | underl (content : List Inline)
  | strikeo (content : List Inline)
  | supersc (content : List Inline)
  | subsc (content : List Inline)
  | span (styles : SpanStyles) (content : List Inline)
  | linebreak
deriving Repr

/-- Pandoc list attributes `[start, style, delimiter]`; the style and
delimiter enum tags are opaque to the converter. -/
structure ListAttrs where
  start : Nat
  style : Nat
  delim : Nat
deriving Repr, DecidableEq

/-- Pandoc block nodes handled by `_process_blocks` (minus `Table`, see
above).  `header` carries `content[0]` (the level) and `content[2]` (the
inlines); the attr in `content[1]` is never read. -/
inductive Block where
  | para (content : List Inline)
  | plain (content : List Inline)
  | header (level : Nat) (content : List Inline)
  | bulletList (items : List (List Block))
  | orderedList (attrs : ListAttrs) (items : List (List Block))
deriving Repr

/-- Emitted section markup, tokenized: `paraStart s p` is
`_create_para_start(style_id=s, para_pr_id=p)`, `run i t` is
`<hp:run charPrIDRef=i><hp:t>t</hp:t></hp:run>`, `lineseg` the
`LineBreak` output. -/
inductive OutTok where
  | paraStart (styleId paraPrId : Nat)
  | paraEnd
  | run (charPrId : Nat) (text : String)
  | lineseg
deriving Repr, DecidableEq

/-- One character of `xml.sax.saxutils.escape`'s output. -/
def escapeChar (c : Char) : List Char :=
  if c = '&' then "&amp;".data
  else if c = '<' then "&lt;".data
  else if c = '>' then "&gt;".data
  else [c]

/-- `xml.sax.saxutils.escape`: replace `&`, then `<`, then `>`.  Each
pattern is a single character and no replacement text contains a character
a later pass replaces, so the three sequential `str.replace` calls equal
this single character-wise expansion. -/
def escapeText (s : String) : String :=
  String.mk (s.data.flatMap escapeChar)

/-- `_get_plain_text` restricted to the inline subset above (`LineBreak`
has no arm there and contributes nothing). -/
def plainText : List Inline → String
  | [] => ""
  | i :: rest =>
    (match i with
     | .str s => s
     | .space => " "
     | .strong c => plainText c
     | .emph c => plainText c
     | .underl c => plainText c
     | .strikeo c => plainText c
     | .supersc c => plainText c
     | .subsc c => plainText c
     | .span _ c => plainText c
     | .linebreak => "") ++ plainText rest

mutual

/-- `_process_inlines(inlines, active_formats, base_color, base_size)`:
the loop over the inline list, threading the converter state and
concatenating each node's output. -/
def processInlines (s : HState) (f : Formats) (color : Option String)
    (size : Option Nat) : List Inline → List OutTok × HState
  | [] => ([], s)
  | i :: rest =>
    let r1 := processInline s f color size i
    let r2 := processInlines r1.2 f color size rest
    (r1.1 ++ r2.1, r2.2)

/-- One arm of the `_process_inlines` dispatch.  Each formatting node
copies the inherited format set and adds its own tag
(`new_formats = active_formats.copy(); new_formats.add(...)`), modelled as
a functional record update; `Span` additionally overrides the inherited
color/size when its styles carry them. -/
def processInline (s : HState) (f : Formats) (color : Option String)
    (size : Option Nat) : Inline → List OutTok × HState
  | .str t =>
    let r := resolveCharPr s 0 f color size
    ([.run r.1 (escapeText t)], r.2)
  | .space =>
    let r := resolveCharPr s 0 f color size
    ([.run r.1 " "], r.2)
  | .strong content => processInlines s { f with bold := true } color size content
  | .emph content => processInlines s { f with italic := true } color size content
  | .underl content => processInlines s { f with underl := true } color size content
  | .strikeo content => processInlines s { f with strike := true } color size content
  | .supersc content => processInlines s { f with supscript := true } color size content
  | .subsc content => processInlines s { f with subscript := true } color size content
  | .span styles content =>
    let f2 : Formats :=
      { bold := f.bold || styles.bold
        italic := f.italic || styles.italic
        underl := f.underl || styles.underl
        strike := f.strike || styles.strike
        supscript := f.supscript
        subscript := f.subscript }
    let color2 := match styles.color with | some c => some c | none => color
    let size2 := match styles.fontSize with | some v => some v | none => size
    processInlines s f2 color2 size2 content
  | .linebreak => ([.lineseg], s)

end

/-- The shared body of `_handle_para` / `_handle_plain` (the two methods
are textually identical): match the paragraph's leading 100 characters of
plain text against the HTML pre-pass map, derive `padding_left`
(`get('padding-left', 0) or get('margin-left', 0)`) and `text_indent`,
resolve the paraPr, and emit the paragraph. -/
def handleParaCore (s : HState) (content : List Inline) : List OutTok × HState :=
  let ps : Option HtmlStyles :=
    if s.htmlParaStyles = [] then none
    else
      let key := (plainText content).take 100
      (s.htmlParaStyles.find? (fun e => e.1 = key)).map (·.2)
  let paddingLeft : Int :=
    match ps with
    | some hs =>
      let p := hs.paddingLeft.getD 0
      if p ≠ 0 then p else hs.marginLeft.getD 0
    | none => 0
  let textIndent : Int :=
    match ps with
    | some hs => hs.textIndent.getD 0
    | none => 0
  let r := resolveParaPr s paddingLeft textIndent
  let r2 := processInlines r.2 emptyFormats none none content
  ([.paraStart s.normalStyleId r.1] ++ r2.1 ++ [.paraEnd], r2.2)

/-- `_handle_para`. -/
def handlePara (s : HState) (content : List Inline) : List OutTok × HState :=
  handleParaCore s content

/-- `_handle_plain` (same body as `_handle_para` in the source). -/
def handlePlain (s : HState) (content : List Inline) : List OutTok × HState :=
  handleParaCore s content

/-- `_handle_header`: `header_style = min(level, 6)`; para start with that
style id and the default paraPr id 1. -/
def handleHeader (s : HState) (level : Nat) (content : List Inline) :
    List OutTok × HState :=
  let r := processInlines s emptyFormats none none content
  ([.paraStart (min level 6) 1] ++ r.1 ++ [.paraEnd], r.2)

/-- One bullet item paragraph: default para start, the literal bullet
marker run, then the inlines with fresh (empty) formatting state. -/
def bulletEntry (s : HState) (content : List Inline) : List OutTok × HState :=
  let r := processInlines s emptyFormats none none content
  ([.paraStart 0 1, .run 0 "• "] ++ r.1 ++ [.paraEnd], r.2)

/-- Block loop inside one bullet item: only `Plain` and `Para` blocks have
an arm; every other block kind falls through the `if`/`elif` with no
output. -/
def bulletItemBlocks (s : HState) : List Block → List OutTok × HState
  | [] => ([], s)
  | b :: rest =>
    let r1 := match b with
      | .plain content => bulletEntry s content
      | .para content => bulletEntry s content
      | _ => ([], s)
    let r2 := bulletItemBlocks r1.2 rest
    (r1.1 ++ r2.1, r2.2)

/-- `_handle_bullet_list`: loop over the items. -/
def handleBulletList (s : HState) : List (List Block) → List OutTok × HState
  | [] => ([], s)
  | item :: items =>
    let r1 := bulletItemBlocks s item
    let r2 := handleBulletList r1.2 items
    (r1.1 ++ r2.1, r2.2)

/-- One ordered item paragraph: marker run text `f'{idx}. '`. -/
def orderedEntry (s : HState) (idx : Nat) (content : List Inline) :
    List OutTok × HState :=
  let r := processInlines s emptyFormats none none content
  ([.paraStart 0 1, .run 0 (toString idx ++ ". ")] ++ r.1 ++ [.paraEnd], r.2)

/-- Block loop inside one ordered item; as in the bullet case, blocks that
are neither `Plain` nor `Para` produce nothing. -/
def orderedItemBlocks (s : HState) (idx : Nat) : List Block → List OutTok × HState
  | [] => ([], s)
  | b :: rest =>
    let r1 := match b with
      | .plain content => orderedEntry s idx content
      | .para content => orderedEntry s idx content
      | _ => ([], s)
    let r2 := orderedItemBlocks r1.2 idx rest
    (r1.1 ++ r2.1, r2.2)

/-- Item loop of `_handle_ordered_list`: `enumerate(items, 1)`. -/
def orderedItems (s : HState) (idx : Nat) : List (List Block) → List OutTok × HState
  | [] => ([], s)
  | item :: items =>
    let r1 := orderedItemBlocks s idx item
    let r2 := orderedItems r1.2 (idx + 1) items
    (r1.1 ++ r2.1, r2.2)

/-- `_handle_ordered_list(list_data)`: `list_data = [list_attributes,
items]`; the items are `list_data[1]`, the attributes are never read. -/
def handleOrderedList (s : HState) (listData : ListAttrs × List (List Block)) :
    List OutTok × HState :=
  orderedItems s 1 listData.2

/-- `_process_blocks` dispatch for one block. -/
def processBlock (s : HState) : Block → List OutTok × HState
  | .para content => handlePara s content
  | .plain content => handlePlain s content
  | .header level content => handleHeader s level content
  | .bulletList items => handleBulletList s items
  | .orderedList attrs items => handleOrderedList s (attrs, items)

/-- `_process_blocks`: the loop over a block list. -/
def processBlocks (s : HState) : List Block → List OutTok × HState
  | [] => ([], s)
  | b :: rest =>
    let r1 := processBlock s b
    let r2 := processBlocks r1.2 rest
    (r1.1 ++ r2.1, r2.2)

/-- The text of the first `run` token, if any — the "first visible marker"
of a rendered list. -/
def firstRunText (toks : List OutTok) : Option String :=
  match toks.find? (fun t => match t with | .run _ _ => true | _ => false) with
  | some (.run _ t) => some t
  | _ => none

/-! ## Template parsing and conversion runs

`_parse_styles_and_init_xml` computes the per-collection maximum id and
scans for the "Normal" (or `바탕글`) style.  A conversion run, as far as id
allocation is concerned, is a sequence of resolver calls (character,
paragraph, table border fill) mutating the state. -/

/-- A `hh:style` row of the template, with the three attributes the parser
reads. -/
structure TmplStyle where
  name : String
  id : Nat
  paraPrIDRef : Nat
deriving Repr, DecidableEq

/-- The max-id loop: `if id > max: max = id`, starting from 0. -/
def maxIdOf (ids : List Nat) : Nat :=
  ids.foldl max 0

/-- The style scan: the last style named `Normal` or `바탕글` wins. -/
def scanNormal : List TmplStyle → Nat × Nat → Nat × Nat
  | [], acc => acc
  | st :: rest, acc =>
    scanNormal rest
      (if st.name = "Normal" ∨ st.name = "바탕글" then (st.id, st.paraPrIDRef) else acc)

/-- The state `_parse_styles_and_init_xml` leaves behind for a template
with the given collections (defaults `normal_style_id = 0`,
`normal_para_pr_id = 1` when no Normal style is found). -/
def initState (tmplChar : List CharPr) (tmplPara : List ParaPr)
    (tmplBf : List Nat) (styles : List TmplStyle)
    (html : List (String × HtmlStyles)) : HState :=
  let normal := scanNormal styles (0, 1)
  { headerPresent := true
    charPrs := tmplChar
    maxCharPrId := maxIdOf (tmplChar.map (·.id))
    charPrCache := []
    paraPrs := tmplPara
    maxParaPrId := maxIdOf (tmplPara.map (·.id))
    paraPrCache := []
    borderFills := tmplBf
    maxBorderFillId := maxIdOf tmplBf
    tableBorderFillId := none
    normalStyleId := normal.1
    normalParaPrId := normal.2
    htmlParaStyles := html }

/-- One state-mutating resolver call of a conversion run. -/
inductive Ev where
  | charReq (baseId : Nat) (f : Formats) (color : Option String) (size : Option Nat)
  | paraReq (paddingLeft textIndent : Int)
  | tblReq
deriving Repr

/-- Execute one resolver call for its state effect. -/
def stepState (s : HState) : Ev → HState
  | .charReq b f c sz => (resolveCharPr s b f c sz).2
  | .paraReq p t => (resolveParaPr s p t).2
  | .tblReq => (ensureTableBorderFill s).2

/-- The charPr ids synthesized along a run, observed as the counter's new
value whenever a step advances it. -/
def charAllocs (s : HState) : List Ev → List Nat
  | [] => []
  | e :: rest =>
    let s2 := stepState s e
    (if s.maxCharPrId < s2.maxCharPrId then [s2.maxCharPrId] else []) ++ charAllocs s2 rest

/-- The paraPr ids synthesized along a run. -/
def paraAllocs (s : HState) : List Ev → List Nat
  | [] => []
  | e :: rest =>
    let s2 := stepState s e
    (if s.maxParaPrId < s2.maxParaPrId then [s2.maxParaPrId] else []) ++ paraAllocs s2 rest

/-- The borderFill ids synthesized along a run. -/
def bfAllocs (s : HState) : List Ev → List Nat
  | [] => []
  | e :: rest =>
    let s2 := stepState s e
    (if s.maxBorderFillId < s2.maxBorderFillId then [s2.maxBorderFillId] else []) ++
      bfAllocs s2 rest

/-! ## Helper lemmas -/

/-- Appending a fresh cache entry makes it the lookup result for its key. -/
theorem cacheLookup_append_self (cache : List (CharKey × Nat)) (k : CharKey) (v : Nat)
    (h : cacheLookup cache k = none) :
    cacheLookup (cache ++ [(k, v)]) k = some v := by
  unfold cacheLookup at h ⊢
  rw [List.find?_append]
  have h2 : cache.find? (fun e => e.1 = k) = none := by
    cases hf : cache.find? (fun e => e.1 = k) with
    | none => rfl
    | some x => rw [hf] at h; simp at h
  rw [h2]
  simp [List.find?]

/-- Unfolding `resolveCharPr` in the synthesis case. -/
theorem resolveCharPr_synth (s : HState) (b : Nat) (f : Formats)
    (c : Option String) (sz : Option Nat) (base : CharPr)
    (hkey : cacheLookup s.charPrCache (b, f, c, sz) = none)
    (hnoop : noopReq f c sz = false)
    (hhdr : s.headerPresent = true)
    (hbase : (findCharPr s.charPrs b).orElse (fun _ => findCharPr s.charPrs 0) = some base) :
    resolveCharPr s b f c sz =
      (s.maxCharPrId + 1,
       { s with
           maxCharPrId := s.maxCharPrId + 1
           charPrs := s.charPrs ++ [synthCharPr base (s.maxCharPrId + 1) f c sz]
           charPrCache := s.charPrCache ++ [((b, f, c, sz), s.maxCharPrId + 1)] }) := by
  unfold resolveCharPr
  simp only [hkey, hnoop, hhdr, hbase]
  simp

/-- Unfolding `resolveCharPr` in the no-op case. -/
theorem resolveCharPr_noopCase (s : HState) (baseId : Nat) (f : Formats)
    (color : Option String) (size : Option Nat)
    (hkey : cacheLookup s.charPrCache (baseId, f, color, size) = none)
    (hnoop : noopReq f color size = true) :
    resolveCharPr s baseId f color size = (baseId, s) := by
  unfold resolveCharPr
  simp only [hkey, hnoop]
  simp

/-! ## C6: no-op identity of the character-property resolver -/

/-- C6: for every baseId, resolving the no-op combination (empty format
set, falsy color, falsy size) returns the baseId unchanged and leaves the
whole converter state — registry, cache and id counter — unmodified.  The
cache-miss hypothesis holds in every reachable state: the resolver only
ever caches keys it synthesized for, which are never no-op keys. -/
theorem charPr_noop_identity (s : HState) (baseId : Nat) (f : Formats)
    (color : Option String) (size : Option Nat)
    (hkey : cacheLookup s.charPrCache (baseId, f, color, size) = none)
    (hnoop : noopReq f color size = true) :
    resolveCharPr s baseId f color size = (baseId, s) :=
  resolveCharPr_noopCase s baseId f color size hkey hnoop

/-- C6 witness: a concrete no-op resolution on the empty-cache state. -/
theorem charPr_noop_identity_witness :
    cacheLookup (HState.charPrCache {}) (3, emptyFormats, none, none) = none ∧
      noopReq emptyFormats none none = true ∧
      resolveCharPr {} 3 emptyFormats none none = (3, {}) :=
  ⟨by decide, by decide,
   charPr_noop_identity {} 3 emptyFormats none none (by decide) (by decide)⟩

/-! ## C10: absent template header drops all requested formatting -/

/-- C10: when no template header was parsed (`header_root is None`), every
request — including one with non-empty formats, color or size — returns
the base id unchanged and performs no synthesis: the state is untouched
and the requested formatting is silently dropped.  (With the header absent
the synthesis path never runs, so the cache stays empty and the cache-miss
hypothesis holds in every reachable state.) -/
theorem charPr_header_absent (s : HState) (baseId : Nat) (f : Formats)
    (color : Option String) (size : Option Nat)
    (hhdr : s.headerPresent = false)
    (hkey : cacheLookup s.charPrCache (baseId, f, color, size) = none) :
    resolveCharPr s baseId f color size = (baseId, s) := by
  unfold resolveCharPr
  simp only [hkey, hhdr]
  by_cases hnoop : noopReq f color size = true
  · simp [hnoop]
  · rw [Bool.not_eq_true] at hnoop
    simp [hnoop]

/-- C10 witness: a bold+color request against the header-less state
returns the base id with no state change. -/
theorem charPr_header_absent_witness :
    HState.headerPresent { headerPresent := false } = false ∧
      resolveCharPr { headerPresent := false } 2
          { bold := true } (some "#FF0000") none =
        (2, { headerPresent := false }) :=
  ⟨by decide,
   charPr_header_absent { headerPresent := false } 2 { bold := true }
     (some "#FF0000") none (by decide) (by decide)⟩

/-- A cache hit returns the cached id with no state change. -/
theorem resolveCharPr_cacheHit (s : HState) (b : Nat) (f : Formats)
    (c : Option String) (sz : Option Nat) (i : Nat)
    (h : cacheLookup s.charPrCache (b, f, c, sz) = some i) :
    resolveCharPr s b f c sz = (i, s) := by
  unfold resolveCharPr
  simp only [h]

/-- When both the base lookup and the id-0 fall-back fail, the resolver
returns the requested id with no state change. -/
theorem resolveCharPr_noBase (s : HState) (b : Nat) (f : Formats)
    (c : Option String) (sz : Option Nat)
    (hkey : cacheLookup s.charPrCache (b, f, c, sz) = none)
    (hnoop : noopReq f c sz = false)
    (hhdr : s.headerPresent = true)
    (hb : (findCharPr s.charPrs b).orElse (fun _ => findCharPr s.charPrs 0) = none) :
    resolveCharPr s b f c sz = (b, s) := by
  unfold resolveCharPr
  simp only [hkey, hnoop, hhdr, hb]
  simp

/-- If the registry holds a record with id `b` or one with id 0, the base
lookup with fall-back succeeds. -/
theorem findCharPr_orElse_isSome (prs : List CharPr) (b : Nat)
    (h : (prs.any (fun pr => pr.id = b) || prs.any (fun pr => pr.id = 0)) = true) :
    ∃ base, (findCharPr prs b).orElse (fun _ => findCharPr prs 0) = some base := by
  cases hb : findCharPr prs b with
  | some x => exact ⟨x, by simp [hb]⟩
  | none =>
    rcases Bool.or_eq_true_iff.mp h with h1 | h1
    · obtain ⟨x, hx, hp⟩ := List.any_eq_true.mp h1
      have : (findCharPr prs b).isSome := by
        unfold findCharPr
        rw [List.find?_isSome]
        exact ⟨x, hx, hp⟩
      rw [hb] at this
      simp at this
    · obtain ⟨x, hx, hp⟩ := List.any_eq_true.mp h1
      have h0 : (findCharPr prs 0).isSome := by
        unfold findCharPr
        rw [List.find?_isSome]
        exact ⟨x, hx, hp⟩
      obtain ⟨y, hy⟩ := Option.isSome_iff_exists.mp h0
      exact ⟨y, by simp [hb, hy]⟩

/-! ## Shared fixtures for witnesses and counterexamples -/

/-- The charPr record with id 0 of a minimal template. -/
def exPr0 : CharPr := { id := 0 }

/-- A parsed-template state: records 0 and 3, maximum id 3, empty caches. -/
def exTState : HState := { charPrs := [exPr0, { id := 3 }], maxCharPrId := 3 }

/-- The format set `{'BOLD'}`. -/
def fmtBold : Formats := { bold := true }

/-- The format set `{'SUPERSCRIPT', 'SUBSCRIPT'}`. -/
def fmtSupSub : Formats := { supscript := true, subscript := true }

/-! ## C3: idempotence of the character-property resolver -/

/-- C3: resolving the same `(baseId, formats, color, size)` tuple twice,
starting from a state in which the tuple has not been resolved before (its
key is not cached), with the template header parsed and the base id (or
the id-0 fall-back) present in the registry, returns the same id both
times, and across the two calls the character-property collection grows by
exactly one record when the tuple is not the no-op combination and by zero
records when it is. -/
theorem charPr_idempotent (s : HState) (b : Nat) (f : Formats)
    (c : Option String) (sz : Option Nat)
    (hkey : cacheLookup s.charPrCache (b, f, c, sz) = none)
    (hhdr : s.headerPresent = true)
    (hbase : (s.charPrs.any (fun pr => pr.id = b) ||
              s.charPrs.any (fun pr => pr.id = 0)) = true) :
    (resolveCharPr s b f c sz).1 =
        (resolveCharPr (resolveCharPr s b f c sz).2 b f c sz).1 ∧
      (resolveCharPr (resolveCharPr s b f c sz).2 b f c sz).2.charPrs.length =
        s.charPrs.length + (if noopReq f c sz then 0 else 1) := by
  by_cases hnoop : noopReq f c sz = true
  · have h1 := resolveCharPr_noopCase s b f c sz hkey hnoop
    rw [h1]
    simp [h1, hnoop]
  · rw [Bool.not_eq_true] at hnoop
    obtain ⟨base, hb⟩ := findCharPr_orElse_isSome s.charPrs b hbase
    have h1 := resolveCharPr_synth s b f c sz base hkey hnoop hhdr hb
    have h2 := cacheLookup_append_self s.charPrCache (b, f, c, sz)
      (s.maxCharPrId + 1) hkey
    rw [h1]
    have h3 := resolveCharPr_cacheHit
      { s with
          maxCharPrId := s.maxCharPrId + 1
          charPrs := s.charPrs ++ [synthCharPr base (s.maxCharPrId + 1) f c sz]
          charPrCache := s.charPrCache ++ [((b, f, c, sz), s.maxCharPrId + 1)] }
      b f c sz (s.maxCharPrId + 1) h2
    rw [h3]
    simp [hnoop]

/-- C3 witness: a fresh BOLD request against the two-record template state
resolves twice to the same id and adds one record in total. -/
theorem charPr_idempotent_witness :
    exTState.headerPresent = true ∧
      ((resolveCharPr exTState 0 fmtBold none none).1 =
          (resolveCharPr (resolveCharPr exTState 0 fmtBold none none).2
            0 fmtBold none none).1 ∧
        (resolveCharPr (resolveCharPr exTState 0 fmtBold none none).2
            0 fmtBold none none).2.charPrs.length =
          exTState.charPrs.length + (if noopReq fmtBold none none then 0 else 1)) :=
  ⟨rfl, charPr_idempotent exTState 0 fmtBold none none
    (by decide) (by decide) (by decide)⟩

/-! ## C4: behavior on an absent base id (corrected) -/

/-- C4 counterexample: in a registry holding records 0 and 3, requesting
the absent base id 99 with BOLD does not return 99 unchanged — it
synthesizes a new record (cloned from the id-0 record) and returns the
fresh id. -/
theorem charPr_unresolved_base_counterexample :
    findCharPr exTState.charPrs 99 = none ∧
      (resolveCharPr exTState 99 fmtBold none none).1 ≠ 99 ∧
      (resolveCharPr exTState 99 fmtBold none none).2.charPrs.length =
        exTState.charPrs.length + 1 := by
  decide

/-- C4 amended: when the requested base id is absent from the registry,
the resolver falls back to the record with id 0 and synthesizes the new
property from it; only when the id-0 record is also absent does it return
the requested base id unchanged with no new record. -/
theorem charPr_unresolved_base (s : HState) (b : Nat) (f : Formats)
    (c : Option String) (sz : Option Nat)
    (hkey : cacheLookup s.charPrCache (b, f, c, sz) = none)
    (hnoop : noopReq f c sz = false)
    (hhdr : s.headerPresent = true)
    (hb : findCharPr s.charPrs b = none) :
    (∀ pr0, findCharPr s.charPrs 0 = some pr0 →
        resolveCharPr s b f c sz =
          (s.maxCharPrId + 1,
           { s with
               maxCharPrId := s.maxCharPrId + 1
               charPrs := s.charPrs ++ [synthCharPr pr0 (s.maxCharPrId + 1) f c sz]
               charPrCache := s.charPrCache ++ [((b, f, c, sz), s.maxCharPrId + 1)] })) ∧
      (findCharPr s.charPrs 0 = none → resolveCharPr s b f c sz = (b, s)) := by
  constructor
  · intro pr0 h0
    exact resolveCharPr_synth s b f c sz pr0 hkey hnoop hhdr (by simp [hb, h0])
  · intro h0
    exact resolveCharPr_noBase s b f c sz hkey hnoop hhdr (by simp [hb, h0])

/-- C4 witness: the fall-back branch taken at base id 99 on the
two-record template state. -/
theorem charPr_unresolved_base_witness :
    findCharPr exTState.charPrs 99 = none ∧
      resolveCharPr exTState 99 fmtBold none none =
        (4, { exTState with
                maxCharPrId := 4
                charPrs := exTState.charPrs ++ [synthCharPr exPr0 4 fmtBold none none]
                charPrCache := [((99, fmtBold, none, none), 4)] }) :=
  ⟨by decide,
   (charPr_unresolved_base exTState 99 fmtBold none none
      (by decide) (by decide) (by decide) (by decide)).1 exPr0 (by decide)⟩

/-! ## C8: SUPERSCRIPT wins over SUBSCRIPT -/

/-- C8: whenever a request whose format set contains both SUPERSCRIPT and
SUBSCRIPT synthesizes a record (fresh key, header present, base record
found), the appended record carries the superscript marker and no
subscript marker. -/
theorem charPr_supersub_exclusive (s : HState) (b : Nat) (f : Formats)
    (c : Option String) (sz : Option Nat) (base : CharPr)
    (hkey : cacheLookup s.charPrCache (b, f, c, sz) = none)
    (hhdr : s.headerPresent = true)
    (hbase : (findCharPr s.charPrs b).orElse (fun _ => findCharPr s.charPrs 0) = some base)
    (hsup : f.supscript = true)
    (_hsub : f.subscript = true) :
    (resolveCharPr s b f c sz).2.charPrs =
        s.charPrs ++ [synthCharPr base (s.maxCharPrId + 1) f c sz] ∧
      (synthCharPr base (s.maxCharPrId + 1) f c sz).supscript = true ∧
      (synthCharPr base (s.maxCharPrId + 1) f c sz).subscript = false := by
  have hnoop : noopReq f c sz = false := by
    unfold noopReq
    have hne : f ≠ emptyFormats := by
      intro h
      rw [h] at hsup
      exact absurd hsup (by decide)
    simp [hne]
  have h1 := resolveCharPr_synth s b f c sz base hkey hnoop hhdr hbase
  rw [h1]
  refine ⟨rfl, ?_, ?_⟩ <;> simp [synthCharPr, applyFmts, hsup]

/-- C8 witness: the SUPERSCRIPT+SUBSCRIPT request synthesized from the
id-0 record of the two-record template state. -/
theorem charPr_supersub_exclusive_witness :
    fmtSupSub.supscript = true ∧ fmtSupSub.subscript = true ∧
      (synthCharPr exPr0 4 fmtSupSub none none).supscript = true ∧
      (synthCharPr exPr0 4 fmtSupSub none none).subscript = false :=
  ⟨by decide, by decide,
   (charPr_supersub_exclusive exTState 0 fmtSupSub none none exPr0
      (by decide) (by decide) (by decide) (by decide) (by decide)).2.1,
   (charPr_supersub_exclusive exTState 0 fmtSupSub none none exPr0
      (by decide) (by decide) (by decide) (by decide) (by decide)).2.2⟩

/-! ## C9: inline recursion does not leak formatting to siblings -/

/-- C9: processing a prefix of an inline sequence — in particular one
formatting subtree such as a `Strong`, `Emph` or `Span` node — never
mutates the caller's inherited active-format set, color or size: the
remaining siblings are processed with exactly the values the parent passed
in (only the converter state threads through), and the outputs
concatenate.  This is the embedding of `new_formats =
active_formats.copy(); new_formats.add(...)`: each descent works on its
own copy. -/
theorem processInlines_no_leak (s : HState) (f : Formats)
    (color : Option String) (size : Option Nat) (l1 l2 : List Inline) :
    processInlines s f color size (l1 ++ l2) =
      ((processInlines s f color size l1).1 ++
         (processInlines (processInlines s f color size l1).2 f color size l2).1,
       (processInlines (processInlines s f color size l1).2 f color size l2).2) := by
  induction l1 generalizing s with
  | nil => simp [processInlines]
  | cons i rest ih =>
    simp only [List.cons_append, processInlines, List.append_eq]
    rw [ih]
    simp

/-! ## C1: ordered-list start number (corrected) -/

/-- The header-less converter state (no template at all): charPr
resolution is the identity there, which keeps the rendered ids
concrete. -/
def exNoHdr : HState := { headerPresent := false }

/-- An ordered list body with two one-paragraph items. -/
def exTwoItems : List (List Block) := [[.plain [.str "a"]], [.plain [.str "b"]]]

/-- C1 counterexample: the ordered list whose attributes carry start
number 5, with two items, renders with first visible marker text `"1. "`,
not `"5."`: the start value is ignored. -/
theorem ordered_start_counterexample :
    firstRunText (handleOrderedList exNoHdr (⟨5, 0, 0⟩, exTwoItems)).1 = some "1. " ∧
      (firstRunText (handleOrderedList exNoHdr (⟨5, 0, 0⟩, exTwoItems)).1).map
          (fun t => t.take 2) ≠ some "5." := by
  decide

/-- C1 amended: the rendered output of an ordered list is independent of
the list's attributes — the explicit start number is never read and
numbering always begins at 1.  In particular the start-5 two-item list
renders its markers as `"1. "`, `"2. "`. -/
theorem ordered_list_numbers_from_one :
    (∀ (s : HState) (a a2 : ListAttrs) (items : List (List Block)),
        handleOrderedList s (a, items) = handleOrderedList s (a2, items)) ∧
      (handleOrderedList exNoHdr (⟨5, 0, 0⟩, exTwoItems)).1 =
        [.paraStart 0 1, .run 0 "1. ", .run 0 "a", .paraEnd,
         .paraStart 0 1, .run 0 "2. ", .run 0 "b", .paraEnd] :=
  ⟨fun _ _ _ _ => rfl, by decide⟩

/-! ## C5: non-paragraph blocks inside list items (corrected) -/

/-- The `block_type == 'Plain' or block_type == 'Para'` test of the two
list handlers. -/
def isPlainPara : Block → Bool
  | .plain _ => true
  | .para _ => true
  | _ => false

/-- Dropping the non-`Plain`/`Para` blocks of one bullet item changes
nothing: the handler never renders them. -/
theorem bulletItemBlocks_filter (s : HState) (item : List Block) :
    bulletItemBlocks s item = bulletItemBlocks s (item.filter isPlainPara) := by
  induction item generalizing s with
  | nil => rfl
  | cons b rest ih =>
    cases b with
    | plain content => simp only [List.filter, isPlainPara, bulletItemBlocks]; rw [ih]
    | para content => simp only [List.filter, isPlainPara, bulletItemBlocks]; rw [ih]
    | header level content =>
      simp only [List.filter, isPlainPara, bulletItemBlocks]; rw [ih]; simp
    | bulletList items =>
      simp only [List.filter, isPlainPara, bulletItemBlocks]; rw [ih]; simp
    | orderedList attrs items =>
      simp only [List.filter, isPlainPara, bulletItemBlocks]; rw [ih]; simp

/-- Same for one ordered item. -/
theorem orderedItemBlocks_filter (s : HState) (idx : Nat) (item : List Block) :
    orderedItemBlocks s idx item = orderedItemBlocks s idx (item.filter isPlainPara) := by
  induction item generalizing s with
  | nil => rfl
  | cons b rest ih =>
    cases b with
    | plain content => simp only [List.filter, isPlainPara, orderedItemBlocks]; rw [ih]
    | para content => simp only [List.filter, isPlainPara, orderedItemBlocks]; rw [ih]
    | header level content =>
      simp only [List.filter, isPlainPara, orderedItemBlocks]; rw [ih]; simp
    | bulletList items =>
      simp only [List.filter, isPlainPara, orderedItemBlocks]; rw [ih]; simp
    | orderedList attrs items =>
      simp only [List.filter, isPlainPara, orderedItemBlocks]; rw [ih]; simp

/-- C5 counterexample: a bullet list whose single item is a `Header` block
produces no output at all (the state is untouched and no token is
emitted), while the generic block path renders that same header — the
block is dropped, not delegated. -/
theorem list_item_header_dropped_counterexample :
    handleBulletList exNoHdr [[Block.header 1 [.str "T"]]] = ([], exNoHdr) ∧
      (processBlock exNoHdr (Block.header 1 [.str "T"])).1 ≠ [] := by
  decide

/-- C5 amended: inside a list item, blocks that are neither `Plain` nor
`Para` are silently dropped: filtering them out of every item leaves the
output of both list handlers (and the final state) unchanged.  They are
not routed through the generic block rendering path. -/
theorem list_item_other_blocks_dropped (s : HState) (a : ListAttrs)
    (items : List (List Block)) :
    handleBulletList s items =
        handleBulletList s (items.map (·.filter isPlainPara)) ∧
      handleOrderedList s (a, items) =
        handleOrderedList s (a, items.map (·.filter isPlainPara)) := by
  constructor
  · induction items generalizing s with
    | nil => rfl
    | cons item rest ih =>
      simp only [List.map, handleBulletList]
      rw [← bulletItemBlocks_filter, ih]
  · show orderedItems s 1 items = orderedItems s 1 (items.map (·.filter isPlainPara))
    generalize 1 = idx
    induction items generalizing s idx with
    | nil => rfl
    | cons item rest ih =>
      simp only [List.map, orderedItems]
      rw [← orderedItemBlocks_filter, ih]

/-! ## C7: monotonic, collision-free id allocation -/

/-- One charPr resolution leaves the charPr counter alone or advances it
by exactly one. -/
theorem resolveCharPr_max (s : HState) (b : Nat) (f : Formats)
    (c : Option String) (sz : Option Nat) :
    (resolveCharPr s b f c sz).2.maxCharPrId = s.maxCharPrId ∨
      (resolveCharPr s b f c sz).2.maxCharPrId = s.maxCharPrId + 1 := by
  unfold resolveCharPr
  cases hcl : cacheLookup s.charPrCache (b, f, c, sz) with
  | some i => simp [hcl]
  | none =>
    simp only [hcl]
    repeat' split
    all_goals simp

/-- charPr resolution never touches the paraPr or borderFill counters. -/
theorem resolveCharPr_other_max (s : HState) (b : Nat) (f : Formats)
    (c : Option String) (sz : Option Nat) :
    (resolveCharPr s b f c sz).2.maxParaPrId = s.maxParaPrId ∧
      (resolveCharPr s b f c sz).2.maxBorderFillId = s.maxBorderFillId := by
  unfold resolveCharPr
  cases hcl : cacheLookup s.charPrCache (b, f, c, sz) with
  | some i => simp [hcl]
  | none =>
    simp only [hcl]
    repeat' split
    all_goals simp

/-- One paraPr resolution leaves the paraPr counter alone or advances it
by exactly one. -/
theorem resolveParaPr_max (s : HState) (p t : Int) :
    (resolveParaPr s p t).2.maxParaPrId = s.maxParaPrId ∨
      (resolveParaPr s p t).2.maxParaPrId = s.maxParaPrId + 1 := by
  unfold resolveParaPr
  cases hcl : paraCacheLookup s.paraPrCache
      ((if p ≠ 0 then p * 100 else 0), (if t ≠ 0 then t * 100 else 0)) with
  | some i =>
    simp only [ne_eq, ite_not] at hcl
    simp [hcl]
  | none =>
    simp only [ne_eq, ite_not] at hcl
    simp only [ne_eq, ite_not, hcl]
    repeat' split
    all_goals simp

/-- paraPr resolution never touches the charPr or borderFill counters. -/
theorem resolveParaPr_other_max (s : HState) (p t : Int) :
    (resolveParaPr s p t).2.maxCharPrId = s.maxCharPrId ∧
      (resolveParaPr s p t).2.maxBorderFillId = s.maxBorderFillId := by
  unfold resolveParaPr
  cases hcl : paraCacheLookup s.paraPrCache
      ((if p ≠ 0 then p * 100 else 0), (if t ≠ 0 then t * 100 else 0)) with
  | some i =>
    simp only [ne_eq, ite_not] at hcl
    simp [hcl]
  | none =>
    simp only [ne_eq, ite_not] at hcl
    simp only [ne_eq, ite_not, hcl]
    repeat' split
    all_goals simp

/-- The lazy table border fill leaves the borderFill counter alone or
advances it by exactly one, and touches no other counter. -/
theorem ensureTableBorderFill_max (s : HState) :
    ((ensureTableBorderFill s).2.maxBorderFillId = s.maxBorderFillId ∨
       (ensureTableBorderFill s).2.maxBorderFillId = s.maxBorderFillId + 1) ∧
      (ensureTableBorderFill s).2.maxCharPrId = s.maxCharPrId ∧
      (ensureTableBorderFill s).2.maxParaPrId = s.maxParaPrId := by
  unfold ensureTableBorderFill
  split
  all_goals simp

/-- Every step is monotone on each collection's counter. -/
theorem stepState_mono (s : HState) (e : Ev) :
    s.maxCharPrId ≤ (stepState s e).maxCharPrId ∧
      s.maxParaPrId ≤ (stepState s e).maxParaPrId ∧
      s.maxBorderFillId ≤ (stepState s e).maxBorderFillId := by
  cases e with
  | charReq b f c sz =>
    simp only [stepState]
    refine ⟨?_, le_of_eq (resolveCharPr_other_max s b f c sz).1.symm,
      le_of_eq (resolveCharPr_other_max s b f c sz).2.symm⟩
    rcases resolveCharPr_max s b f c sz with h | h <;> omega
  | paraReq p t =>
    simp only [stepState]
    refine ⟨le_of_eq (resolveParaPr_other_max s p t).1.symm, ?_,
      le_of_eq (resolveParaPr_other_max s p t).2.symm⟩
    rcases resolveParaPr_max s p t with h | h <;> omega
  | tblReq =>
    simp only [stepState]
    obtain ⟨h1, h2, h3⟩ := ensureTableBorderFill_max s
    exact ⟨le_of_eq h2.symm, le_of_eq h3.symm, by rcases h1 with h | h <;> omega⟩

/-- Generic property of a counter-observing allocation trace: every
recorded id exceeds the starting counter, and the trace is strictly
increasing. -/
theorem allocs_bound_sorted (counter : HState → Nat)
    (allocs : HState → List Ev → List Nat)
    (hnil : ∀ s, allocs s [] = [])
    (hcons : ∀ s e rest, allocs s (e :: rest) =
      (if counter s < counter (stepState s e) then [counter (stepState s e)] else []) ++
        allocs (stepState s e) rest)
    (hmono : ∀ s e, counter s ≤ counter (stepState s e)) :
    ∀ (evs : List Ev) (s : HState),
      (∀ i ∈ allocs s evs, counter s < i) ∧ (allocs s evs).Pairwise (· < ·) := by
  intro evs
  induction evs with
  | nil => intro s; simp [hnil]
  | cons e rest ih =>
    intro s
    obtain ⟨ihb, ihp⟩ := ih (stepState s e)
    rw [hcons]
    by_cases h : counter s < counter (stepState s e)
    · simp only [h, if_pos, List.singleton_append]
      refine ⟨?_, ?_⟩
      · intro i hi
        rcases List.mem_cons.mp hi with rfl | hi
        · exact h
        · exact lt_trans h (ihb i hi)
      · exact List.pairwise_cons.mpr ⟨fun i hi => ihb i hi, ihp⟩
    · simp only [h, if_neg, not_false_iff, List.nil_append]
      exact ⟨fun i hi => lt_of_le_of_lt (hmono s e) (ihb i hi), ihp⟩

/-- C7: along any conversion run (any sequence of character-property,
paragraph-property and table-border-fill resolutions) starting from a
freshly parsed template, every synthesized id in each collection is
strictly greater than the template's maximum id for that collection, and
no two synthesized ids within one collection are equal (each trace is in
fact strictly increasing). -/
theorem run_allocation_monotonic (tmplChar : List CharPr) (tmplPara : List ParaPr)
    (tmplBf : List Nat) (styles : List TmplStyle)
    (html : List (String × HtmlStyles)) (evs : List Ev) :
    ((∀ i ∈ charAllocs (initState tmplChar tmplPara tmplBf styles html) evs,
         maxIdOf (tmplChar.map (·.id)) < i) ∧
       (charAllocs (initState tmplChar tmplPara tmplBf styles html) evs).Pairwise (· ≠ ·)) ∧
      ((∀ i ∈ paraAllocs (initState tmplChar tmplPara tmplBf styles html) evs,
          maxIdOf (tmplPara.map (·.id)) < i) ∧
        (paraAllocs (initState tmplChar tmplPara tmplBf styles html) evs).Pairwise (· ≠ ·)) ∧
      ((∀ i ∈ bfAllocs (initState tmplChar tmplPara tmplBf styles html) evs,
          maxIdOf tmplBf < i) ∧
        (bfAllocs (initState tmplChar tmplPara tmplBf styles html) evs).Pairwise (· ≠ ·)) := by
  have hchar := allocs_bound_sorted (fun s => s.maxCharPrId) charAllocs
    (fun _ => rfl) (fun _ _ _ => rfl) (fun s e => (stepState_mono s e).1)
    evs (initState tmplChar tmplPara tmplBf styles html)
  have hpara := allocs_bound_sorted (fun s => s.maxParaPrId) paraAllocs
    (fun _ => rfl) (fun _ _ _ => rfl) (fun s e => (stepState_mono s e).2.1)
    evs (initState tmplChar tmplPara tmplBf styles html)
  have hbf := allocs_bound_sorted (fun s => s.maxBorderFillId) bfAllocs
    (fun _ => rfl) (fun _ _ _ => rfl) (fun s e => (stepState_mono s e).2.2)
    evs (initState tmplChar tmplPara tmplBf styles html)
  exact ⟨⟨hchar.1, hchar.2.imp (fun h => Nat.ne_of_lt h)⟩,
    ⟨hpara.1, hpara.2.imp (fun h => Nat.ne_of_lt h)⟩,
    ⟨hbf.1, hbf.2.imp (fun h => Nat.ne_of_lt h)⟩⟩

/-! ## C2: table occupancy closure -/

/-- Two placements have disjoint footprints. -/
def FpDisj (p q : Placement) : Prop :=
  ∀ x : Nat × Nat, inFp p x → ¬ inFp q x

/-- Membership after a Python-set insertion. -/
theorem mem_addPos (occ : List (Nat × Nat)) (p x : Nat × Nat) :
    x ∈ addPos occ p ↔ x ∈ occ ∨ x = p := by
  unfold addPos
  split
  · rename_i hp
    refine ⟨Or.inl, ?_⟩
    rintro (h2 | rfl)
    · exact h2
    · exact hp
  · simp

/-- Membership after marking one row segment of a footprint. -/
theorem mem_markColSpan (occ : List (Nat × Nat)) (r col cs : Nat) (x : Nat × Nat) :
    x ∈ markColSpan occ r col cs ↔
      x ∈ occ ∨ (x.1 = r ∧ col ≤ x.2 ∧ x.2 < col + cs) := by
  obtain ⟨a, b⟩ := x
  induction cs with
  | zero => simp [markColSpan]
  | succ n ih =>
    unfold markColSpan at ih ⊢
    rw [List.range_succ, List.foldl_append]
    simp only [List.foldl_cons, List.foldl_nil]
    rw [mem_addPos, ih]
    simp only [Prod.mk.injEq]
    constructor
    · rintro ((h | h) | h)
      · exact Or.inl h
      · right; omega
      · right; omega
    · rintro (h | h)
      · exact Or.inl (Or.inl h)
      · by_cases hlt : b < col + n
        · left; right; omega
        · right; omega

/-- Membership after marking a whole rowSpan×colSpan footprint. -/
theorem mem_markFootprint (occ : List (Nat × Nat)) (row col rs cs : Nat) (x : Nat × Nat) :
    x ∈ markFootprint occ row col rs cs ↔
      x ∈ occ ∨ (row ≤ x.1 ∧ x.1 < row + rs ∧ col ≤ x.2 ∧ x.2 < col + cs) := by
  obtain ⟨a, b⟩ := x
  induction rs with
  | zero =>
    simp only [markFootprint, List.range_zero, List.foldl_nil]
    constructor
    · exact Or.inl
    · rintro (h | h)
      · exact h
      · omega
  | succ n ih =>
    unfold markFootprint at ih ⊢
    rw [List.range_succ, List.foldl_append]
    simp only [List.foldl_cons, List.foldl_nil]
    rw [mem_markColSpan, ih]
    simp only
    constructor
    · rintro ((h | h) | h)
      · exact Or.inl h
      · right; omega
      · right; omega
    · rintro (h | h)
      · exact Or.inl (Or.inl h)
      · by_cases hlt : a < row + n
        · left; right; omega
        · right; omega

/-- The occupancy set produced by the cell loop is the input set plus the
footprints of the emitted placements. -/
theorem mem_layoutCells_occ (cells : List TCell) :
    ∀ (occ : List (Nat × Nat)) (r c : Nat) (x : Nat × Nat),
      x ∈ (layoutCells occ r c cells).2 ↔
        x ∈ occ ∨ ∃ p ∈ (layoutCells occ r c cells).1, inFp p x := by
  induction cells with
  | nil => intro occ r c x; simp [layoutCells]
  | cons cell rest ih =>
    intro occ r c x
    simp only [layoutCells]
    rw [ih, mem_markFootprint]
    simp only [List.mem_cons, exists_eq_or_imp, inFp]
    tauto

/-- The occupancy set produced by the row loop is the input set plus the
footprints of the emitted placements. -/
theorem mem_layoutRows_occ (rows : List (List TCell)) :
    ∀ (occ : List (Nat × Nat)) (r : Nat) (x : Nat × Nat),
      x ∈ (layoutRows occ r rows).2 ↔
        x ∈ occ ∨ ∃ p ∈ (layoutRows occ r rows).1, inFp p x := by
  induction rows with
  | nil => intro occ r x; simp [layoutRows]
  | cons row rest ih =>
    intro occ r x
    simp only [layoutRows]
    rw [ih, mem_layoutCells_occ]
    simp only [List.mem_append]
    constructor
    · rintro ((h | ⟨p, hp, hpx⟩) | ⟨p, hp, hpx⟩)
      · exact Or.inl h
      · exact Or.inr ⟨p, Or.inl hp, hpx⟩
      · exact Or.inr ⟨p, Or.inr hp, hpx⟩
    · rintro (h | ⟨p, hp | hp, hpx⟩)
      · exact Or.inl (Or.inl h)
      · exact Or.inl (Or.inr ⟨p, hp, hpx⟩)
      · exact Or.inr ⟨p, hp, hpx⟩

/-- The collision check holds exactly when the whole footprint avoids the
incoming occupancy set. -/
theorem fpFree_spec (occ : List (Nat × Nat)) (row col rs cs : Nat) :
    fpFree occ row col rs cs = true ↔
      ∀ a b : Nat, row ≤ a → a < row + rs → col ≤ b → b < col + cs →
        (a, b) ∉ occ := by
  unfold fpFree
  simp only [List.all_eq_true, List.mem_range, Bool.not_eq_eq_eq_not, Bool.not_true,
    decide_eq_false_iff_not]
  constructor
  · intro h a b h1 h2 h3 h4
    have := h (a - row) (by omega) (b - col) (by omega)
    have ha : row + (a - row) = a := by omega
    have hb : col + (b - col) = b := by omega
    rwa [ha, hb] at this
  · intro h i hi j hj
    exact h (row + i) (col + j) (by omega) (by omega) (by omega) (by omega)

/-- When the cell loop passes the collision check, every emitted footprint
avoids the incoming occupancy set and the emitted footprints are pairwise
disjoint. -/
theorem cellsOk_disjoint (cells : List TCell) :
    ∀ (occ : List (Nat × Nat)) (r c : Nat), cellsOk occ r c cells = true →
      (∀ p ∈ (layoutCells occ r c cells).1, ∀ x, inFp p x → x ∉ occ) ∧
        (layoutCells occ r c cells).1.Pairwise FpDisj := by
  induction cells with
  | nil => intro occ r c _; simp [layoutCells]
  | cons cell rest ih =>
    intro occ r c hok
    simp only [cellsOk, Bool.and_eq_true] at hok
    obtain ⟨hfree, hrest⟩ := hok
    obtain ⟨ih1, ih2⟩ := ih
      (markFootprint occ r (skipCols occ r c (occ.length + 1)) cell.rowspan cell.colspan)
      r (skipCols occ r c (occ.length + 1) + cell.colspan) hrest
    simp only [layoutCells]
    constructor
    · intro p hp x hx
      rcases List.mem_cons.mp hp with rfl | hp
      · obtain ⟨a, b⟩ := x
        obtain ⟨h1, h2, h3, h4⟩ := hx
        exact (fpFree_spec occ r (skipCols occ r c (occ.length + 1))
          cell.rowspan cell.colspan).mp hfree a b h1 h2 h3 h4
      · intro hmem
        exact ih1 p hp x hx ((mem_markFootprint _ _ _ _ _ _).mpr (Or.inl hmem))
    · refine List.pairwise_cons.mpr ⟨?_, ih2⟩
      intro q hq x hx hqx
      apply ih1 q hq x hqx
      rw [mem_markFootprint]
      right
      exact hx


/-- When the whole walk passes the collision check, every emitted
footprint avoids the initial occupancy set and all emitted footprints are
pairwise disjoint. -/
theorem rowsOk_disjoint (rows : List (List TCell)) :
    ∀ (occ : List (Nat × Nat)) (r : Nat), rowsOk occ r rows = true →
      (∀ p ∈ (layoutRows occ r rows).1, ∀ x, inFp p x → x ∉ occ) ∧
        (layoutRows occ r rows).1.Pairwise FpDisj := by
  induction rows with
  | nil => intro occ r _; simp [layoutRows]
  | cons row rest ih =>
    intro occ r hok
    simp only [rowsOk, Bool.and_eq_true] at hok
    obtain ⟨hcells, hrest⟩ := hok
    obtain ⟨c1, c2⟩ := cellsOk_disjoint row occ r 0 hcells
    obtain ⟨ih1, ih2⟩ := ih (layoutCells occ r 0 row).2 (r + 1) hrest
    simp only [layoutRows]
    constructor
    · intro p hp x hx hmem
      rcases List.mem_append.mp hp with hp | hp
      · exact c1 p hp x hx hmem
      · exact ih1 p hp x hx ((mem_layoutCells_occ row occ r 0 x).mpr (Or.inl hmem))
    · rw [List.pairwise_append]
      refine ⟨c2, ih2, ?_⟩
      intro p hp q hq x hx hqx
      apply ih1 q hq x hqx
      exact (mem_layoutCells_occ row occ r 0 x).mpr (Or.inr ⟨p, hp, hx⟩)

/-- In a pairwise-disjoint placement list, a position inside one member's
footprint is counted exactly once. -/
theorem countP_inFp_unique (x : Nat × Nat) :
    ∀ (ps : List Placement), ps.Pairwise FpDisj →
      ∀ p ∈ ps, inFp p x →
        ps.countP (fun q => decide (inFp q x)) = 1 := by
  intro ps
  induction ps with
  | nil => intro _ p hp; simp at hp
  | cons q rest ih =>
    intro hpw p hp hpx
    rw [List.pairwise_cons] at hpw
    obtain ⟨hq, hrest⟩ := hpw
    rcases List.mem_cons.mp hp with rfl | hp
    · rw [List.countP_cons_of_pos _ _ (by simpa using hpx)]
      have hzero : rest.countP (fun q2 => decide (inFp q2 x)) = 0 := by
        rw [List.countP_eq_zero]
        intro q2 hq2
        simp only [decide_eq_true_eq]
        exact hq q2 hq2 x hpx
      omega
    · rw [List.countP_cons_of_neg]
      · exact ih hrest p hp hpx
      · simp only [decide_eq_true_eq]
        intro hqx
        exact hq p hp x hqx hpx

/-- C2 counterexample: a one-row table with a single 1×1 cell, declared
with two columns, leaves the in-range grid position (0,1) outside every
emitted cell's footprint — it is covered zero times, not exactly once. -/
theorem table_occupancy_counterexample :
    (0 : Nat) < ([[(⟨1, 1⟩ : TCell)]] : List (List TCell)).length ∧ (1 : Nat) < 2 ∧
      (tableLayout [[(⟨1, 1⟩ : TCell)]]).1.countP
          (fun p => decide (inFp p (0, 1))) = 0 := by
  decide

/-- C2 amended: for a table whose layout walk never marks an
already-occupied position (`layoutOk`) and whose final occupancy covers
the whole declared grid (`coversGrid`) — which holds for well-formed
tables whose cells tile the grid, but not for arbitrary span values —
every grid position (row < n, col < declaredColumns) lies in the
rowSpan×colSpan footprint of exactly one emitted cell. -/
theorem table_occupancy_exactly_once (rows : List (List TCell)) (d : Nat)
    (hok : layoutOk rows = true) (hcov : coversGrid rows d = true)
    (r c : Nat) (hr : r < rows.length) (hc : c < d) :
    (tableLayout rows).1.countP (fun p => decide (inFp p (r, c))) = 1 := by
  have hmem : (r, c) ∈ (tableLayout rows).2 := by
    unfold coversGrid at hcov
    rw [List.all_eq_true] at hcov
    have h1 := hcov r (List.mem_range.mpr hr)
    rw [List.all_eq_true] at h1
    have h2 := h1 c (List.mem_range.mpr hc)
    simpa using h2
  have hex : ∃ p ∈ (tableLayout rows).1, inFp p (r, c) := by
    have h2 := (mem_layoutRows_occ rows [] 0 (r, c)).mp hmem
    rcases h2 with h2 | h2
    · simp at h2
    · exact h2
  obtain ⟨p, hp, hpx⟩ := hex
  have hdisj := (rowsOk_disjoint rows [] 0 hok).2
  exact countP_inFp_unique (r, c) (tableLayout rows).1 hdisj p hp hpx

/-- C2 witness: the 2×2 table whose first cell spans two rows passes both
checks, and position (1,1) is covered exactly once. -/
theorem table_occupancy_exactly_once_witness :
    layoutOk [[(⟨2, 1⟩ : TCell), ⟨1, 1⟩], [⟨1, 1⟩]] = true ∧
      coversGrid [[(⟨2, 1⟩ : TCell), ⟨1, 1⟩], [⟨1, 1⟩]] 2 = true ∧
      (tableLayout [[(⟨2, 1⟩ : TCell), ⟨1, 1⟩], [⟨1, 1⟩]]).1.countP
          (fun p => decide (inFp p (1, 1))) = 1 :=
  ⟨by decide, by decide,
   table_occupancy_exactly_once [[(⟨2, 1⟩ : TCell), ⟨1, 1⟩], [⟨1, 1⟩]] 2
     (by decide) (by decide) 1 1 (by decide) (by decide)⟩

end PandocToHwpx
